import Mathlib

/-!
Shallow embedding of the vufs 9P file server (vufs.go) and proofs about its
request handlers: version negotiation, attach, walk, create, permission
checking, and the startup tree construction.

Machine integers are modelled as `Nat` with explicit `% 2^w` or `&&& mask`
where the Go code truncates.  Pointers into the file tree and into the fid
records are modelled as indices into explicit stores (`List FileNode`,
`List FidRec`), so that Go pointer aliasing is observable.  Host-filesystem
side effects in `rcreate` are modelled by an outcome environment (`HostEnv`)
plus a trace of the host actions performed (`HostAct`).
-/

set_option autoImplicit false

namespace VuFs

/-- Modelled from the spec: the 9P constants live in this repository's
`const.go`, which is absent from the sources.  `QTDIR` is the directory bit
of `qid.type` ("type carries high bits: directory, ...", §3; "e.g. `0x80`",
§9), the standard 9P2000 value `0x80`. -/
def QTDIR : Nat := 0x80

/-- Modelled from the spec: the plain-file qid type (no bit set). -/
def QTFILE : Nat := 0

/-- Modelled from the spec: the directory bit of the 32-bit mode word. -/
def DMDIR : Nat := 0x80000000

/-- Modelled from the spec: read permission bit (R = 4). -/
def DMREAD : Nat := 4

/-- Modelled from the spec: write permission bit (W = 2). -/
def DMWRITE : Nat := 2

/-- Modelled from the spec: execute permission bit (X = 1). -/
def DMEXEC : Nat := 1

/-- Modelled from the spec: open-for-read I/O mode (`OREAD`). -/
def OREAD : Nat := 0

/-- Modelled from the spec: `NOFID` is `0xFFFFFFFF` (§6). -/
def NOFID : Nat := 0xFFFFFFFF

/-- Modelled from the spec: the server maximum message size,
"default 8192+IOHDRSZ" (§4.F); IOHDRSZ is the standard 24. -/
def MAX_MSIZE : Nat := 8192 + 24

/-- Modelled from the spec: the configured default principal that owns files
loaded without a sidecar (§4.C); the seed users file names `adm` first. -/
def DEFAULT_USER : String := "adm"

/-- A qid: `{type, version, path}` (u8, u32, u64). -/
structure Qid where
  ty : Nat
  vers : Nat
  path : Nat
deriving DecidableEq, Repr

/-- A tree node: the stat record of `dir.go` (`{type, dev omitted as unused,
qid, mode, atime, mtime, length, name, uid, gid, muid}`) plus the `parent`
back-reference and the child map of `File`.  `children = none` models a Go
nil map (as `new(File)` leaves it); `some l` models an allocated map. -/
structure FileNode where
  typ : Nat
  qid : Qid
  mode : Nat
  atime : Nat
  mtime : Nat
  length : Nat
  name : String
  uid : String
  gid : String
  muid : String
  parent : Nat
  children : Option (List (String × Nat))
deriving DecidableEq, Repr

/-- A fid record (`Fid` in vufs.go): node pointer (index), uid, open flag. -/
structure FidRec where
  file : Nat
  uid : String
  isOpen : Bool
deriving DecidableEq, Repr

/-- Go-map lookup over an association list (first binding wins, as every
update conses a fresh binding in front). -/
def alookup {κ α : Type} [DecidableEq κ] (k : κ) : List (κ × α) → Option α
  | [] => none
  | p :: t => if p.1 = k then some p.2 else alookup k t

/-- CheckPerm from vufs.go:323.  The group clause of the source is commented
out (`BUG(mbucc) : groups not implemented`), so only the other bits and, for
the owner, the owner bits take part. -/
def CheckPerm (f : FileNode) (uid : String) (perm : Nat) : Bool :=
  if uid = "" then false
  else
    let perm := perm &&& 7
    let fperm := f.mode &&& 7
    if fperm &&& perm = perm then true
    else
      let fperm := if f.uid = uid then fperm ||| ((f.mode >>> 6) &&& 7) else fperm
      if fperm &&& perm = perm then true else false

/-- Modelled from the spec: the group-membership query of §4.B/§4.E
(`is-member(user, group)`), as a finite relation of (user name, group name)
pairs; the source's own group check exists only as commented-out code. -/
def isMemberOf (g : List (String × String)) (uid gid : String) : Bool :=
  g.contains (uid, gid)

/-- Modelled from the spec: the §4.E reference algorithm for
`check-perm(node, uid, want)`, written from the spec's words so it can be
compared with the source's `CheckPerm`. -/
def checkPermSpec (g : List (String × String)) (f : FileNode) (uid : String)
    (want : Nat) : Bool :=
  if uid = "" then false
  else
    let m := f.mode &&& 7
    let m := if f.uid = uid then m ||| ((f.mode >>> 6) &&& 7) else m
    let m := if isMemberOf g uid f.gid then m ||| ((f.mode >>> 3) &&& 7) else m
    m &&& want = want

/-- Effective mask actually used by the source's `CheckPerm`: other bits,
plus the owner bits when the uid matches. -/
def effMask (f : FileNode) (uid : String) : Nat :=
  (f.mode &&& 7) ||| (if f.uid = uid then (f.mode >>> 6) &&& 7 else 0)

/-- Error text of vufs.go:410 without apostrophe literals. -/
def notFoundMsg (wn : String) : String :=
  String.mk (Char.ofNat 39 :: wn.data) ++ String.mk (Char.ofNat 39 :: " not found".data)

/-- Outcome of one step of the walk loop of `rwalk` (vufs.go:403,428):
either the step is refused with a message, or it moves to a node and
appends that node's qid. -/
inductive StepRes where
  | deny (msg : String)
  | next (idx : Nat) (q : Qid)
deriving DecidableEq, Repr

/-- One iteration of the walk loop of vufs.go:403,428.  `".."` moves to the
parent; any other name is looked up in the (possibly nil) child map; a found
child is then subjected to the source's `f.Type & QTDIR == 1` execute-check.
`none` models a dangling node index (a Go nil dereference). -/
def wstep (nodes : List FileNode) (uid : String) (f : Nat) (wn : String) :
    Option StepRes :=
  match nodes[f]? with
  | none => none
  | some fn =>
    if wn = ".." then
      match nodes[fn.parent]? with
      | none => none
      | some pn => some (.next fn.parent pn.qid)
    else
      match alookup wn (fn.children.getD []) with
      | none => some (.deny (notFoundMsg wn))
      | some c =>
        match nodes[c]? with
        | none => none
        | some cn =>
          if cn.typ &&& QTDIR = 1 ∧ CheckPerm cn uid DMEXEC = false then
            some (.deny "permission denied")
          else some (.next c cn.qid)

/-- Result of the whole walk loop: an error reply (only possible on the very
first step), an early success that keeps the qids walked so far, or full
completion at a final node. -/
inductive WalkOut where
  | failed (msg : String)
  | stopped (wqid : List Qid)
  | finished (idx : Nat) (wqid : List Qid)
deriving DecidableEq, Repr

/-- The walk loop of vufs.go:403,428: `i` is the loop index and `acc` the
`rc.Wqid` accumulated so far. -/
def walkNames (nodes : List FileNode) (uid : String) :
    Nat → List String → Nat → List Qid → Option WalkOut
  | f, [], _, acc => some (.finished f acc)
  | f, wn :: rest, i, acc =>
    match wstep nodes uid f wn with
    | none => none
    | some (.deny m) => if i = 0 then some (.failed m) else some (.stopped acc)
    | some (.next f2 q) => walkNames nodes uid f2 rest (i + 1) (acc ++ [q])

/-- Pure path resolution: `some (g, qs)` iff every step succeeds, ending at
node `g` having collected the qids `qs`.  Used to state what "all the steps
up to here succeed" means independently of the loop's index bookkeeping. -/
def stepsOk (nodes : List FileNode) (uid : String) :
    Nat → List String → Option (Nat × List Qid)
  | f, [] => some (f, [])
  | f, wn :: ws =>
    match wstep nodes uid f wn with
    | some (.next f2 q) =>
      match stepsOk nodes uid f2 ws with
      | some (g, qs) => some (g, q :: qs)
      | none => none
    | _ => none

/-- Reply of `rwalk` together with the fid table and fid-record store it
leaves behind.  `err = none` means the reply is `Rwalk` with `wqid`;
`err = some e` means the reply is `Rerror e`. -/
structure RwalkR where
  err : Option String
  wqid : List Qid
  table : List (Nat × Nat)
  heap : List FidRec
deriving DecidableEq, Repr

/-- The Twalk handler (vufs.go:375,437).  The fid table maps fid numbers to
indices into `heap`, so that vufs.go:393 (`fids[newfid] = fid`, sharing the
same `*Fid`) is distinguishable from allocating a copy.  Note vufs.go:384
and 417 test `Type & QTDIR == 1` on the stat-record type field, and the
zero-name shortcut at vufs.go:392 runs before the newfid-in-use check at
vufs.go:397. -/
def rwalk (nodes : List FileNode) (heap : List FidRec)
    (table : List (Nat × Nat)) (fid newfid : Nat) (wname : List String) :
    Option RwalkR :=
  match alookup fid table with
  | none => some ⟨some ("fid " ++ toString fid ++ " not found"), [], table, heap⟩
  | some r =>
    match heap[r]? with
    | none => none
    | some fr =>
      match wname with
      | [] =>
        if fr.isOpen then some ⟨some "already open", [], table, heap⟩
        else some ⟨none, [], (newfid, r) :: table, heap⟩
      | w0 :: rest =>
        match nodes[fr.file]? with
        | none => none
        | some fn =>
          if fn.typ &&& QTDIR = 1 then some ⟨some "not a directory", [], table, heap⟩
          else if fr.isOpen then some ⟨some "already open", [], table, heap⟩
          else if (alookup newfid table).isSome then
            some ⟨some "already in use", [], table, heap⟩
          else
            match walkNames nodes fr.uid fr.file (w0 :: rest) 0 [] with
            | none => none
            | some (.failed m) => some ⟨some m, [], table, heap⟩
            | some (.stopped qs) => some ⟨none, qs, table, heap⟩
            | some (.finished g qs) =>
              some ⟨none, qs, (newfid, heap.length) :: table,
                heap ++ [⟨g, fr.uid, false⟩]⟩

/-- Go `strings.Index` for a single character: index of the first occurrence
or `none`. -/
def idxOf (c : Char) : List Char → Option Nat
  | [] => none
  | a :: l => if a = c then some 0 else (idxOf c l).map (· + 1)

/-- The protocol version string, as its character list. -/
def VERSION9P : List Char := ['9', 'P', '2', '0', '0', '0']

/-- The reply for an unsupported version. -/
def unknownVersion : List Char := ['u', 'n', 'k', 'n', 'o', 'w', 'n']

/-- Truncation step of vufs.go:145,149: cut at the first dot only when that
dot is not the leading character. -/
def rversionVer (v : List Char) : List Char :=
  match idxOf '.' v with
  | some i => if 0 < i then v.take i else v
  | none => v

/-- The Tversion handler's reply (vufs.go:142,178), as the pair of the
replied version string and the replied (clamped) msize.  The session-reset
channel drain is connection plumbing and is not part of the reply. -/
def rversion (v : List Char) (msize : Nat) : List Char × Nat :=
  let ver := rversionVer v
  let ver2 := if ver = VERSION9P then ver else unknownVersion
  let msz := if msize > MAX_MSIZE then MAX_MSIZE else msize
  (ver2, msz)

/-- Reply of `rattach` with the stores it leaves behind. -/
structure RattachR where
  err : Option String
  heap : List FidRec
  table : List (Nat × Nat)
  qid : Option Qid
deriving DecidableEq, Repr

/-- The Tattach handler (vufs.go:181,200): only `aname = "/"` and
`afid = NOFID` are allowed, the fid must be unused, and the new fid record
carries whatever uname the message brought — no users store is consulted. -/
def rattach (nodes : List FileNode) (rootIdx : Nat) (heap : List FidRec)
    (table : List (Nat × Nat)) (fid afid : Nat) (aname uname : String) :
    Option RattachR :=
  if aname ≠ "/" then some ⟨some "can only attach to root directory", heap, table, none⟩
  else if afid ≠ NOFID then some ⟨some "authentication not supported", heap, table, none⟩
  else if (alookup fid table).isSome then
    some ⟨some "fid already in use on this connection", heap, table, none⟩
  else
    match nodes[rootIdx]? with
    | none => none
    | some rootN =>
      some ⟨none, heap ++ [⟨rootIdx, uname, false⟩], (fid, heap.length) :: table,
        some rootN.qid⟩

/-- Host-filesystem actions performed by `rcreate`, in order. -/
inductive HostAct where
  | created
  | removed
  | removeFailed
deriving DecidableEq, Repr

/-- Outcomes of the host-filesystem calls `rcreate` makes: `os.OpenFile`,
the sidecar write (`writeOwnership`), `fp.Stat`, `info2stat`, and
`os.Remove`; plus the inode the successful stat reports. -/
structure HostEnv where
  openErr : Option String
  sidecarErr : Option String
  statErr : Option String
  i2sErr : Option String
  removeErr : Bool
  ino : Nat
deriving DecidableEq, Repr

/-- Reply of `rcreate` with the stores it leaves behind and the trace of
host actions it performed. -/
structure RcreateR where
  err : Option String
  nodes : List FileNode
  heap : List FidRec
  table : List (Nat × Nat)
  qid : Option Qid
  acts : List HostAct
deriving DecidableEq, Repr

/-- The 9P-visible path used in `rcreate` error messages
(`filepath.Join(parent.Name, name)`). -/
def pathJoin (a b : String) : String := a ++ "/" ++ b

/-- The Tcreate handler (vufs.go:223,321).  Checks run in source order; the
host-filesystem calls take their outcomes from `env`.  A sidecar-write
failure (vufs.go:273,276) returns at once; only the two stat failures
(vufs.go:278,295) attempt the cleanup `os.Remove`, appending
`" (and file was left on disk)"` when that remove itself fails.  On success
the new node gets `qid.type` from the high byte of `perm`, a nil child map
(`new(File)` never allocates one), and the fid is rebound to a fresh open
record. -/
def rcreate (env : HostEnv) (now : Nat) (nodes : List FileNode)
    (heap : List FidRec) (table : List (Nat × Nat)) (fid : Nat)
    (name : String) (perm mode : Nat) : Option RcreateR :=
  match alookup fid table with
  | none => some ⟨some "fid not found", nodes, heap, table, none, []⟩
  | some r =>
  match heap[r]? with
  | none => none
  | some fr =>
  match nodes[fr.file]? with
  | none => none
  | some parent =>
  if parent.qid.ty &&& QTDIR = 0 then
    some ⟨some (parent.name ++ " is not a directory"), nodes, heap, table, none, []⟩
  else if name = "." ∨ name = ".." then
    some ⟨some (name ++ " invalid name"), nodes, heap, table, none, []⟩
  else if CheckPerm parent fr.uid DMWRITE = false then
    some ⟨some "permission denied", nodes, heap, table, none, []⟩
  else if (alookup name (parent.children.getD [])).isSome then
    some ⟨some "already exists", nodes, heap, table, none, []⟩
  else if perm &&& QTDIR = 1 ∧ mode &&& 3 ≠ OREAD then
    some ⟨some "can only create a directory in read mode", nodes, heap, table, none, []⟩
  else
    let fsyspath := pathJoin parent.name name
    match env.openErr with
    | some e => some ⟨some (fsyspath ++ ": " ++ e), nodes, heap, table, none, []⟩
    | none =>
    match env.sidecarErr with
    | some e => some ⟨some (fsyspath ++ ": " ++ e), nodes, heap, table, none, [.created]⟩
    | none =>
    match env.statErr with
    | some e =>
      if env.removeErr then
        some ⟨some (fsyspath ++ ": " ++ e ++ " (and file was left on disk)"),
          nodes, heap, table, none, [.created, .removeFailed]⟩
      else
        some ⟨some (fsyspath ++ ": " ++ e), nodes, heap, table, none, [.created, .removed]⟩
    | none =>
    match env.i2sErr with
    | some e =>
      if env.removeErr then
        some ⟨some (fsyspath ++ ": " ++ e ++ " (and file was left on disk)"),
          nodes, heap, table, none, [.created, .removeFailed]⟩
      else
        some ⟨some (fsyspath ++ ": " ++ e), nodes, heap, table, none, [.created, .removed]⟩
    | none =>
      match parent.children with
      | none => none
      | some cl =>
        let newIdx := nodes.length
        let child : FileNode :=
          { typ := 0
            qid := ⟨(perm >>> 24) % 256, 0, env.ino⟩
            mode := perm
            atime := now
            mtime := now
            length := 0
            name := name
            uid := fr.uid
            gid := parent.gid
            muid := fr.uid
            parent := fr.file
            children := none }
        some ⟨none,
          (nodes.set fr.file { parent with children := some ((name, newIdx) :: cl) }) ++ [child],
          heap ++ [⟨newIdx, fr.uid, true⟩],
          (fid, heap.length) :: table,
          some child.qid,
          [.created]⟩

/-- Host-side facts `buildfile` reads from `os.FileInfo`/`syscall.Stat_t`. -/
structure OsInfo where
  isDir : Bool
  modeBits : Nat
  mtimeMs : Nat
  mtimeS : Nat
  atimeS : Nat
  size : Nat
  fname : String
  ino : Nat
deriving DecidableEq, Repr

/-- Modelled from the spec: `Dir.Null` (dir.go is absent from the sources)
initializes the stat record to the zero record; §4.C then lists exactly the
fields `buildfile` fills in. -/
def nullNode : FileNode :=
  { typ := 0, qid := ⟨0, 0, 0⟩, mode := 0, atime := 0, mtime := 0, length := 0
    name := "", uid := "", gid := "", muid := "", parent := 0, children := none }

/-- One node of the startup tree walk (vufs.go:546,599).  `parentIdx` is the
index the caller resolved through `loadmap`; for the root it is the node's
own index.  Note vufs.go:571 ORs `QTDIR` into `Qid.Vers` (not `Qid.Type`),
while line 570 ORs `DMDIR` into the mode. -/
def buildfile (isRoot : Bool) (parentIdx : Nat) (info : OsInfo) : FileNode :=
  let f := nullNode
  let f := { f with
    qid := ⟨f.qid.ty, info.mtimeMs % 4294967296, info.ino⟩
    mode := info.modeBits &&& 511
    atime := info.atimeS % 4294967296
    mtime := info.mtimeS % 4294967296
    length := info.size
    name := info.fname
    children := some [] }
  let f := if info.isDir then
      { f with mode := f.mode ||| DMDIR
               qid := { f.qid with vers := f.qid.vers ||| QTDIR }
               length := 0 }
    else f
  let f := if isRoot then { f with name := "/", parent := parentIdx, mode := 511 }
    else { f with parent := parentIdx }
  { f with uid := DEFAULT_USER, gid := DEFAULT_USER, muid := DEFAULT_USER }

/-- Fixture: qid of the 0700 directory below. -/
def dirQid : Qid := ⟨0, 133, 2⟩

/-- Fixture: a loaded root directory whose only child is `d`. -/
def rootNode : FileNode :=
  ⟨0, ⟨0, 5, 1⟩, 511, 0, 0, 0, "/", "adm", "adm", "adm", 0, some [("d", 1)]⟩

/-- Fixture: a directory with mode `0700` owned by `alice`. -/
def aliceDir : FileNode :=
  ⟨0, dirQid, 448 ||| DMDIR, 0, 0, 0, "d", "alice", "adm", "alice", 0, some []⟩

/-- Fixture: the two-node tree root → `d`. -/
def walkNodes : List FileNode := [rootNode, aliceDir]

/-- Fixture: one fid record for `bob`, attached at the root. -/
def bobHeap : List FidRec := [⟨0, "bob", false⟩]

/-- Fixture: fid 0 bound to bob's record. -/
def bobTable : List (Nat × Nat) := [(0, 0)]

/-- Fixture: two fid records, for `bob` and `eve`. -/
def twoFidHeap : List FidRec := [⟨0, "bob", false⟩, ⟨1, "eve", false⟩]

/-- Fixture: fids 0 and 1 both bound. -/
def twoFidTable : List (Nat × Nat) := [(0, 0), (1, 1)]

/-- Fixture: a node with mode `0070`, owned by `alice`, group `g`. -/
def groupNode : FileNode :=
  ⟨0, ⟨0, 0, 3⟩, 56, 0, 0, 0, "f", "alice", "g", "alice", 0, none⟩

/-- Fixture: a node whose other bits are `rwx`. -/
def worldRW : FileNode :=
  ⟨0, ⟨0, 0, 4⟩, 7, 0, 0, 0, "w", "alice", "adm", "alice", 0, none⟩

/-- Fixture: host facts for a directory seen by the startup walk. -/
def dirInfo : OsInfo := ⟨true, 448, 5, 6, 7, 10, "d", 9⟩

/-- Fixture: a writable parent directory for create scenarios. -/
def createParent : FileNode :=
  ⟨0, ⟨128, 0, 1⟩, 511, 0, 0, 0, "/", "adm", "adm", "adm", 0, some []⟩

/-- Fixture: tree holding only the create parent. -/
def createNodes : List FileNode := [createParent]

/-- Fixture: host outcomes where the sidecar write fails. -/
def envSidecarFail : HostEnv := ⟨none, some "boom", none, none, false, 42⟩

/-- Fixture: host outcomes where the post-create stat fails and the cleanup
remove fails too. -/
def envStatFail : HostEnv := ⟨none, none, some "statboom", none, true, 42⟩

/-- Fixture: root of a three-node chain root → a → b. -/
def chainRoot : FileNode :=
  ⟨0, ⟨0, 0, 1⟩, 511, 0, 0, 0, "/", "adm", "adm", "adm", 0, some [("a", 1)]⟩

/-- Fixture: middle node of the chain. -/
def chainA : FileNode :=
  ⟨0, ⟨0, 0, 2⟩, 511, 0, 0, 0, "a", "adm", "adm", "adm", 0, some [("b", 2)]⟩

/-- Fixture: leaf of the chain. -/
def chainB : FileNode :=
  ⟨0, ⟨0, 0, 3⟩, 511, 0, 0, 0, "b", "adm", "adm", "adm", 1, some []⟩

/-- Fixture: the chain tree. -/
def chainNodes : List FileNode := [chainRoot, chainA, chainB]

/-- Fixture: one fid record for user `u` at the chain root. -/
def uHeap : List FidRec := [⟨0, "u", false⟩]

/-- Fixture: fid 0 bound to u's record. -/
def uTable : List (Nat × Nat) := [(0, 0)]

theorem land_lor_absorb {a b x : Nat} (h : a &&& x = x) : (a ||| b) &&& x = x := by
  apply Nat.eq_of_testBit_eq
  intro i
  have hh : (a.testBit i && x.testBit i) = x.testBit i := by
    rw [← Nat.testBit_land, h]
  rw [Nat.testBit_land, Nat.testBit_lor]
  cases hx : x.testBit i
  · simp
  · rw [hx] at hh
    simp only [Bool.and_true] at hh
    simp [hh]

theorem land_mono_subset {m p q : Nat} (hs : q &&& p = q) (h : m &&& p = p) :
    m &&& q = q := by
  apply Nat.eq_of_testBit_eq
  intro i
  have h1 : (q.testBit i && p.testBit i) = q.testBit i := by rw [← Nat.testBit_land, hs]
  have h2 : (m.testBit i && p.testBit i) = p.testBit i := by rw [← Nat.testBit_land, h]
  rw [Nat.testBit_land]
  cases hq : q.testBit i
  · simp
  · rw [hq] at h1
    simp only [Bool.true_and] at h1
    rw [h1] at h2
    simp only [Bool.and_true] at h2
    simp [h2]

theorem checkPerm_iff (f : FileNode) (u : String) (p : Nat) :
    CheckPerm f u p = true ↔ u ≠ "" ∧ effMask f u &&& (p &&& 7) = p &&& 7 := by
  by_cases hu : u = ""
  · simp [CheckPerm, hu]
  · by_cases ho : f.uid = u
    · have he : effMask f u = (f.mode &&& 7) ||| ((f.mode >>> 6) &&& 7) := by
        simp [effMask, ho]
      by_cases h2 : ((f.mode &&& 7) ||| ((f.mode >>> 6) &&& 7)) &&& (p &&& 7) = p &&& 7
      · by_cases h1 : (f.mode &&& 7) &&& (p &&& 7) = p &&& 7 <;>
          simp [CheckPerm, hu, ho, h1, h2, he]
      · have h1 : ¬((f.mode &&& 7) &&& (p &&& 7) = p &&& 7) := fun hh => h2 (land_lor_absorb hh)
        simp [CheckPerm, hu, ho, h1, h2, he]
    · have he : effMask f u = f.mode &&& 7 := by simp [effMask, ho]
      by_cases h1 : (f.mode &&& 7) &&& (p &&& 7) = p &&& 7 <;>
        simp [CheckPerm, hu, ho, h1, he]

/-- C1: the claim says `CheckPerm` implements exactly the §4.E reference
algorithm, group clause included.  The source's group clause is commented
out (`BUG(mbucc) : groups not implemented`, vufs.go:349,368), so a user who
holds only group permissions is denied where the reference algorithm
grants: node mode `0070`, gid `g`, `bob` a member of `g`, want `R`. -/
theorem checkPerm_group_bits_ignored :
    isMemberOf [("bob", "g")] "bob" groupNode.gid = true ∧
    checkPermSpec [("bob", "g")] groupNode "bob" DMREAD = true ∧
    CheckPerm groupNode "bob" DMREAD = false := by
  refine ⟨by decide, by decide, by decide⟩

/-- C8: `CheckPerm` is monotone in the requested permission: if the wanted
bits `q` are a subset of `p` on the low 3 bits and `p` is granted, `q` is
granted. -/
theorem CheckPerm_monotone (f : FileNode) (u : String) (p q : Nat)
    (hsub : (q &&& 7) &&& (p &&& 7) = q &&& 7)
    (h : CheckPerm f u p = true) : CheckPerm f u q = true := by
  rw [checkPerm_iff] at h ⊢
  exact ⟨h.1, land_mono_subset hsub h.2⟩

/-- Witness for C8: granting `rw` (6) implies granting `r` (4) on a node
whose other bits are `rwx`. -/
theorem CheckPerm_monotone_witness :
    ((4 &&& 7) &&& (6 &&& 7) = 4 &&& 7) ∧ CheckPerm worldRW "bob" 6 = true ∧
    CheckPerm worldRW "bob" 4 = true :=
  ⟨by decide, by decide, CheckPerm_monotone worldRW "bob" 6 4 (by decide) (by decide)⟩

/-- C10: `rattach` never consults the virtual users store: for every uname,
an attach with `afid = NOFID`, `aname = "/"` and an unused fid succeeds and
installs a fid at the root carrying that uname, and the empty uid is denied
by every subsequent permission check. -/
theorem rattach_any_uname (nodes : List FileNode) (rootIdx : Nat)
    (heap : List FidRec) (table : List (Nat × Nat)) (fid : Nat) (uname : String)
    (rootN : FileNode)
    (hfree : alookup fid table = none)
    (hroot : nodes[rootIdx]? = some rootN) :
    rattach nodes rootIdx heap table fid NOFID "/" uname =
      some ⟨none, heap ++ [⟨rootIdx, uname, false⟩], (fid, heap.length) :: table,
        some rootN.qid⟩ ∧
    alookup fid ((fid, heap.length) :: table) = some heap.length ∧
    (heap ++ [⟨rootIdx, uname, false⟩])[heap.length]? = some (FidRec.mk rootIdx uname false) ∧
    (∀ g p, CheckPerm g "" p = false) := by
  refine ⟨?_, ?_, ?_, ?_⟩
  · simp [rattach, hfree, hroot]
  · simp [alookup]
  · simp
  · intro g p
    simp [CheckPerm]

theorem walkNames_finished (nodes : List FileNode) (uid : String) :
    ∀ (names : List String) (f g : Nat) (qs : List Qid) (i : Nat) (acc : List Qid),
      stepsOk nodes uid f names = some (g, qs) →
      walkNames nodes uid f names i acc = some (.finished g (acc ++ qs)) := by
  intro names
  induction names with
  | nil =>
    intro f g qs i acc h
    simp [stepsOk] at h
    obtain ⟨rfl, rfl⟩ := h
    simp [walkNames]
  | cons wn ws ih =>
    intro f g qs i acc h
    simp only [stepsOk] at h
    cases hw : wstep nodes uid f wn with
    | none => rw [hw] at h; simp at h
    | some sr =>
      cases sr with
      | deny m => rw [hw] at h; simp at h
      | next f2 q =>
        simp only [hw] at h
        cases hs : stepsOk nodes uid f2 ws with
        | none => rw [hs] at h; simp at h
        | some pr =>
          obtain ⟨g2, qs2⟩ := pr
          rw [hs] at h
          simp at h
          obtain ⟨rfl, rfl⟩ := h
          simp only [walkNames, hw]
          rw [ih f2 g2 qs2 (i + 1) (acc ++ [q]) hs]
          simp

theorem walkNames_stops (nodes : List FileNode) (uid : String) :
    ∀ (pre : List String) (f g : Nat) (qs : List Qid) (wk : String)
      (post : List String) (m : String) (i : Nat) (acc : List Qid),
      stepsOk nodes uid f pre = some (g, qs) →
      wstep nodes uid g wk = some (.deny m) →
      walkNames nodes uid f (pre ++ wk :: post) i acc =
        if i + pre.length = 0 then some (.failed m) else some (.stopped (acc ++ qs)) := by
  intro pre
  induction pre with
  | nil =>
    intro f g qs wk post m i acc h hw
    simp [stepsOk] at h
    obtain ⟨rfl, rfl⟩ := h
    simp [walkNames, hw]
  | cons wn ws ih =>
    intro f g qs wk post m i acc h hw
    simp only [stepsOk] at h
    cases hstep : wstep nodes uid f wn with
    | none => rw [hstep] at h; simp at h
    | some sr =>
      cases sr with
      | deny m2 => rw [hstep] at h; simp at h
      | next f2 q =>
        simp only [hstep] at h
        cases hs : stepsOk nodes uid f2 ws with
        | none => rw [hs] at h; simp at h
        | some pr =>
          obtain ⟨g2, qs2⟩ := pr
          rw [hs] at h
          simp at h
          obtain ⟨rfl, rfl⟩ := h
          simp only [List.cons_append, walkNames, hstep]
          simp only [List.append_eq]
          rw [ih f2 g2 qs2 wk post m (i + 1) (acc ++ [q]) hs hw]
          rw [if_neg (by omega), if_neg (by simp)]
          simp

/-- C2: the claim says every non-`..` walk name resolves via the child map
(true) and that entering a directory requires X permission, so that `bob`
walking into a `0700` directory owned by `alice` gets
`Rerror "permission denied"`.  The execute check at vufs.go:417 tests
`f.Type & QTDIR == 1` on the never-assigned stat-record type field, so it
can never fire: the walk succeeds although `CheckPerm` denies X. -/
theorem rwalk_no_exec_check :
    CheckPerm aliceDir "bob" DMEXEC = false ∧
    rwalk walkNodes bobHeap bobTable 0 1 ["d"] =
      some ⟨none, [dirQid], (1, 1) :: bobTable, bobHeap ++ [⟨1, "bob", false⟩]⟩ := by
  refine ⟨by decide, by decide⟩

/-- C6: partial-walk semantics of `rwalk`.  Under the handler's
preconditions (fid bound, record not open, node present, the source's
not-a-directory test false, newfid unused): a denial on the very first name
is an error reply; a denial on a later name is a success reply carrying
exactly the qids of the steps already walked, with newfid left unbound; if
every name succeeds, newfid is bound to a fresh record over the final node
carrying the original fid's uid. -/
theorem rwalk_partial_walk_semantics (nodes : List FileNode)
    (heap : List FidRec) (table : List (Nat × Nat)) (fid newfid : Nat)
    (w0 : String) (rest : List String) (r : Nat) (fr : FidRec) (fn : FileNode)
    (m m2 : String) (pre : List String) (wk : String) (post : List String)
    (g : Nat) (qs : List Qid) (g2 : Nat) (qs2 : List Qid)
    (hf : alookup fid table = some r)
    (hr : heap[r]? = some fr)
    (hopen : fr.isOpen = false)
    (hfn : nodes[fr.file]? = some fn)
    (hdir : fn.typ &&& QTDIR ≠ 1)
    (hnew : alookup newfid table = none) :
    (wstep nodes fr.uid fr.file w0 = some (.deny m) →
      rwalk nodes heap table fid newfid (w0 :: rest) = some ⟨some m, [], table, heap⟩)
    ∧ (w0 :: rest = pre ++ wk :: post → pre ≠ [] →
      stepsOk nodes fr.uid fr.file pre = some (g, qs) →
      wstep nodes fr.uid g wk = some (.deny m2) →
      rwalk nodes heap table fid newfid (w0 :: rest) = some ⟨none, qs, table, heap⟩ ∧
      alookup newfid table = none)
    ∧ (stepsOk nodes fr.uid fr.file (w0 :: rest) = some (g2, qs2) →
      rwalk nodes heap table fid newfid (w0 :: rest) =
        some ⟨none, qs2, (newfid, heap.length) :: table, heap ++ [⟨g2, fr.uid, false⟩]⟩ ∧
      alookup newfid ((newfid, heap.length) :: table) = some heap.length ∧
      (heap ++ [⟨g2, fr.uid, false⟩])[heap.length]? = some (FidRec.mk g2 fr.uid false)) := by
  refine ⟨?_, ?_, ?_⟩
  · intro hw
    have hwn : walkNames nodes fr.uid fr.file (w0 :: rest) 0 [] = some (.failed m) := by
      simp [walkNames, hw]
    simp [rwalk, hf, hr, hfn, hdir, hopen, hnew, hwn]
  · intro hsplit hpre hsteps hw
    have hwn : walkNames nodes fr.uid fr.file (w0 :: rest) 0 [] = some (.stopped qs) := by
      rw [hsplit, walkNames_stops nodes fr.uid pre fr.file g qs wk post m2 0 [] hsteps hw,
        if_neg (by simp [List.length_eq_zero, hpre])]
      simp
    refine ⟨?_, hnew⟩
    simp [rwalk, hf, hr, hfn, hdir, hopen, hnew, hwn]
  · intro hsteps
    have hwn : walkNames nodes fr.uid fr.file (w0 :: rest) 0 [] =
        some (.finished g2 qs2) := by
      rw [walkNames_finished nodes fr.uid (w0 :: rest) fr.file g2 qs2 0 [] hsteps]
      simp
    refine ⟨?_, ?_, ?_⟩
    · simp [rwalk, hf, hr, hfn, hdir, hopen, hnew, hwn]
    · simp [alookup]
    · simp

/-- Witness for C6: on the chain root → `a`, walking `["a", "zz"]` fails at
the second name, so the reply keeps the one qid walked and newfid stays
unbound. -/
theorem rwalk_partial_walk_semantics_witness :
    alookup 0 uTable = some 0 ∧ uHeap[0]? = some (FidRec.mk 0 "u" false) ∧
    ((wstep chainNodes "u" 0 "a" = some (.deny "permission denied") →
      rwalk chainNodes uHeap uTable 0 1 ["a", "zz"] =
        some ⟨some "permission denied", [], uTable, uHeap⟩)
    ∧ (["a", "zz"] = ["a"] ++ "zz" :: [] → ["a"] ≠ ([] : List String) →
      stepsOk chainNodes "u" 0 ["a"] = some (1, [⟨0, 0, 2⟩]) →
      wstep chainNodes "u" 1 "zz" = some (.deny (notFoundMsg "zz")) →
      rwalk chainNodes uHeap uTable 0 1 ["a", "zz"] =
        some ⟨none, [⟨0, 0, 2⟩], uTable, uHeap⟩ ∧
      alookup 1 uTable = none)
    ∧ (stepsOk chainNodes "u" 0 ["a", "zz"] = some (2, [⟨0, 0, 2⟩, ⟨0, 0, 3⟩]) →
      rwalk chainNodes uHeap uTable 0 1 ["a", "zz"] =
        some ⟨none, [⟨0, 0, 2⟩, ⟨0, 0, 3⟩], (1, uHeap.length) :: uTable,
          uHeap ++ [⟨2, "u", false⟩]⟩ ∧
      alookup 1 ((1, uHeap.length) :: uTable) = some uHeap.length ∧
      (uHeap ++ [⟨2, "u", false⟩])[uHeap.length]? = some (FidRec.mk 2 "u" false))) :=
  ⟨by decide, by decide,
    rwalk_partial_walk_semantics chainNodes uHeap uTable 0 1 "a" ["zz"] 0
      ⟨0, "u", false⟩ chainRoot "permission denied" (notFoundMsg "zz") ["a"] "zz" []
      1 [⟨0, 0, 2⟩] 2 [⟨0, 0, 2⟩, ⟨0, 0, 3⟩]
      (by decide) (by decide) (by decide) (by decide) (by decide) (by decide)⟩

/-- C7 counterexample: the claim says any Twalk with `newfid ≠ fid` whose
newfid is already bound fails and leaves the table unchanged, and that
`newfid = fid` is never rejected for being in use.  Both parts fail: the
zero-name shortcut at vufs.go:392 runs before the in-use check, so a
zero-name walk onto the bound newfid 1 ≠ fid 0 succeeds and rebinds it; and
a one-name walk with `newfid = fid = 0` is rejected with "already in use"
because the check only asks whether newfid is bound at all. -/
theorem rwalk_zero_walk_overwrites_newfid :
    (alookup 1 twoFidTable).isSome = true ∧
    rwalk walkNodes twoFidHeap twoFidTable 0 1 [] =
      some ⟨none, [], (1, 0) :: twoFidTable, twoFidHeap⟩ ∧
    rwalk walkNodes bobHeap bobTable 0 0 ["d"] =
      some ⟨some "already in use", [], bobTable, bobHeap⟩ := by
  refine ⟨by decide, by decide, by decide⟩

/-- C7 amended: for a Twalk with at least one name, a newfid that is
already bound — including `newfid = fid` itself — is rejected with
"already in use" and the fid table is unchanged; a zero-name Twalk performs
no such check and rebinds newfid unconditionally. -/
theorem rwalk_newfid_in_use_amended (nodes : List FileNode)
    (heap : List FidRec) (table : List (Nat × Nat)) (fid newfid : Nat)
    (w0 : String) (rest : List String) (r r2 : Nat) (fr : FidRec) (fn : FileNode)
    (hf : alookup fid table = some r)
    (hr : heap[r]? = some fr)
    (hopen : fr.isOpen = false)
    (hfn : nodes[fr.file]? = some fn)
    (hdir : fn.typ &&& QTDIR ≠ 1) :
    (alookup newfid table = some r2 →
      rwalk nodes heap table fid newfid (w0 :: rest) =
        some ⟨some "already in use", [], table, heap⟩)
    ∧ rwalk nodes heap table fid newfid [] =
        some ⟨none, [], (newfid, r) :: table, heap⟩ := by
  constructor
  · intro hnew
    simp [rwalk, hf, hr, hfn, hdir, hopen, hnew]
  · simp [rwalk, hf, hr, hopen]

/-- Witness for C7's amended claim: with fids 0 and 1 both bound, a
one-name walk from 0 to 1 errors, and a zero-name walk from 0 to 1
rebinds 1. -/
theorem rwalk_newfid_in_use_amended_witness :
    alookup 0 twoFidTable = some 0 ∧ alookup 1 twoFidTable = some 1 ∧
    ((alookup 1 twoFidTable = some 1 →
      rwalk walkNodes twoFidHeap twoFidTable 0 1 ["d"] =
        some ⟨some "already in use", [], twoFidTable, twoFidHeap⟩)
    ∧ rwalk walkNodes twoFidHeap twoFidTable 0 1 [] =
        some ⟨none, [], (1, 0) :: twoFidTable, twoFidHeap⟩) :=
  ⟨by decide, by decide,
    rwalk_newfid_in_use_amended walkNodes twoFidHeap twoFidTable 0 1 "d" [] 0 1
      ⟨0, "bob", false⟩ rootNode (by decide) (by decide) (by decide) (by decide)
      (by decide)⟩

/-- C9: a zero-name Twalk on an existing, non-open fid installs under
newfid the very same fid record, not a copy: the store of records is
unchanged and both fid and newfid resolve to the same reference `r`, so any
later mutation of that record is observed through both handles. -/
theorem rwalk_zero_names_aliases_record (nodes : List FileNode)
    (heap : List FidRec) (table : List (Nat × Nat)) (fid newfid r : Nat)
    (fr : FidRec)
    (hf : alookup fid table = some r)
    (hr : heap[r]? = some fr)
    (hopen : fr.isOpen = false) :
    rwalk nodes heap table fid newfid [] =
      some ⟨none, [], (newfid, r) :: table, heap⟩ ∧
    alookup newfid ((newfid, r) :: table) = some r ∧
    alookup fid ((newfid, r) :: table) = some r := by
  refine ⟨?_, ?_, ?_⟩
  · simp [rwalk, hf, hr, hopen]
  · simp [alookup]
  · by_cases h : newfid = fid
    · simp [alookup, h]
    · simp [alookup, h, hf]

/-- Witness for C9: walking zero names from fid 0 to fid 7 shares record 0. -/
theorem rwalk_zero_names_aliases_record_witness :
    alookup 0 bobTable = some 0 ∧
    (rwalk walkNodes bobHeap bobTable 0 7 [] =
      some ⟨none, [], (7, 0) :: bobTable, bobHeap⟩ ∧
    alookup 7 ((7, 0) :: bobTable) = some 0 ∧
    alookup 0 ((7, 0) :: bobTable) = some 0) :=
  ⟨by decide,
    rwalk_zero_names_aliases_record walkNodes bobHeap bobTable 0 7 0
      ⟨0, "bob", false⟩ (by decide) (by decide) (by decide)⟩

/-- Witness for C10: an anonymous attach with an unknown uname on fid 5. -/
theorem rattach_any_uname_witness :
    alookup 5 ([] : List (Nat × Nat)) = none ∧
    rattach [rootNode] 0 [] [] 5 NOFID "/" "" =
      some ⟨none, [⟨0, "", false⟩], [(5, 0)], some rootNode.qid⟩ ∧
    alookup 5 [((5 : Nat), (0 : Nat))] = some 0 ∧
    ([⟨0, "", false⟩] : List FidRec)[0]? = some (FidRec.mk 0 "" false) ∧
    (∀ g p, CheckPerm g "" p = false) := by
  have h := rattach_any_uname [rootNode] 0 [] [] 5 "" rootNode (by decide) (by decide)
  exact ⟨by decide, h.1, h.2.1, h.2.2.1, h.2.2.2⟩

theorem idxOf_cons_self (c : Char) (l : List Char) : idxOf c (c :: l) = some 0 := by
  simp [idxOf]

theorem idxOf_cons_ne (x c : Char) (l : List Char) (h : ¬x = c) :
    idxOf c (x :: l) = (idxOf c l).map (· + 1) := by
  simp [idxOf, h]

theorem idxOf_split (c : Char) :
    ∀ (v : List Char) (i : Nat), idxOf c v = some i →
      ∃ a b, v = a ++ c :: b ∧ a.length = i ∧ c ∉ a := by
  intro v
  induction v with
  | nil => intro i h; simp [idxOf] at h
  | cons x l ih =>
    intro i h
    by_cases hx : x = c
    · subst hx
      rw [idxOf_cons_self] at h
      obtain rfl := (Option.some.injEq _ _).mp h
      exact ⟨[], l, rfl, rfl, by simp⟩
    · rw [idxOf_cons_ne x c l hx] at h
      cases hj : idxOf c l with
      | none => rw [hj] at h; simp at h
      | some j =>
        rw [hj] at h
        simp at h
        obtain ⟨a, b, hv, hlen, hmem⟩ := ih j hj
        refine ⟨x :: a, b, by simp [hv], by simp [hlen, ← h], ?_⟩
        intro hc
        rcases List.mem_cons.mp hc with hc1 | hc2
        · exact hx hc1.symm
        · exact hmem hc2

theorem rversionVer_some (v : List Char) (i : Nat) (hi : idxOf '.' v = some i) :
    rversionVer v = if 0 < i then v.take i else v := by
  unfold rversionVer
  rw [hi]

theorem rversionVer_none (v : List Char) (hi : idxOf '.' v = none) :
    rversionVer v = v := by
  unfold rversionVer
  rw [hi]

theorem idxOf_dot_after_version (r : List Char) :
    idxOf '.' (VERSION9P ++ '.' :: r) = some 6 := by
  show idxOf '.' ('9' :: 'P' :: '2' :: '0' :: '0' :: '0' :: '.' :: r) = some 6
  rw [idxOf_cons_ne _ _ _ (by decide), idxOf_cons_ne _ _ _ (by decide),
    idxOf_cons_ne _ _ _ (by decide), idxOf_cons_ne _ _ _ (by decide),
    idxOf_cons_ne _ _ _ (by decide), idxOf_cons_ne _ _ _ (by decide),
    idxOf_cons_self]
  simp

theorem rversionVer_eq_iff (v : List Char) :
    rversionVer v = VERSION9P ↔
      v = VERSION9P ∨ ∃ r, v = VERSION9P ++ '.' :: r := by
  constructor
  · intro h
    cases hi : idxOf '.' v with
    | none => rw [rversionVer_none v hi] at h; exact Or.inl h
    | some i =>
      rw [rversionVer_some v i hi] at h
      by_cases h0 : 0 < i
      · rw [if_pos h0] at h
        obtain ⟨a, b, hv, hlen, hmem⟩ := idxOf_split '.' v i hi
        have ha : v.take i = a := by
          rw [hv, ← hlen]
          exact List.take_left a ('.' :: b)
        rw [ha] at h
        subst h
        exact Or.inr ⟨b, hv⟩
      · rw [if_neg h0] at h
        exact Or.inl h
  · rintro (rfl | ⟨r, rfl⟩)
    · exact rversionVer_none VERSION9P (by decide)
    · rw [rversionVer_some _ 6 (idxOf_dot_after_version r),
        if_pos (by omega : (0 : Nat) < 6)]
      exact List.take_left VERSION9P ('.' :: r)

/-- C5 counterexample: the claim says every version string with the leading
characters `9P2000` is accepted with reply `9P2000`; the string `9P2000X`
begins with `9P2000` yet the source (which only truncates at a dot and then
compares for equality) replies `unknown`. -/
theorem rversion_prefix_not_accepted :
    VERSION9P.isPrefixOf (VERSION9P ++ ['X']) = true ∧
    (rversion (VERSION9P ++ ['X']) 8192).1 = unknownVersion ∧
    unknownVersion ≠ VERSION9P := by
  refine ⟨by decide, by decide, by decide⟩

/-- C5 amended: `rversion` accepts exactly `9P2000` itself and the strings
of the form `9P2000.` followed by anything (truncating at the first dot),
replying `9P2000`; every other version string is answered with `unknown`;
and the replied msize is the requested msize clamped to the server
maximum. -/
theorem rversion_amended (v : List Char) (ms : Nat) :
    ((rversion v ms).1 = VERSION9P ↔
      v = VERSION9P ∨ ∃ r, v = VERSION9P ++ '.' :: r) ∧
    ((rversion v ms).1 = VERSION9P ∨ (rversion v ms).1 = unknownVersion) ∧
    (rversion v ms).2 = min ms MAX_MSIZE := by
  refine ⟨?_, ?_, ?_⟩
  · rw [← rversionVer_eq_iff]
    by_cases h : rversionVer v = VERSION9P
    · simp [rversion, h]
    · simp [rversion, h, show unknownVersion ≠ VERSION9P from by decide]
  · by_cases h : rversionVer v = VERSION9P <;> simp [rversion, h]
  · simp only [rversion]
    split <;> omega

/-- C3 counterexample: the claim says a sidecar-write failure after the
host file was created unlinks the host file before the error is returned.
In the source (vufs.go:273,276) the sidecar-failure path returns the error
immediately: the trace records the creation and no remove at all. -/
theorem rcreate_sidecar_fail_no_unlink :
    rcreate envSidecarFail 0 createNodes bobHeap bobTable 0 "hello" 420 1 =
      some ⟨some ("//hello: boom"), createNodes, bobHeap, bobTable, none,
        [.created]⟩ ∧
    HostAct.removed ∉ [HostAct.created] ∧
    HostAct.removeFailed ∉ [HostAct.created] := by
  refine ⟨by decide, by decide, by decide⟩

/-- C3 amended: after the host file was created, only a failure of the stat
of the created file (or of its conversion) unlinks the host file before the
error is returned, appending " (and file was left on disk)" when that
unlink itself fails; a sidecar-write failure returns the error with no
unlink attempt, leaving the host file on disk. -/
theorem rcreate_cleanup_amended (env : HostEnv) (now : Nat)
    (nodes : List FileNode) (heap : List FidRec) (table : List (Nat × Nat))
    (fid : Nat) (name : String) (perm mode : Nat) (r : Nat) (fr : FidRec)
    (parent : FileNode) (e : String)
    (hf : alookup fid table = some r)
    (hr : heap[r]? = some fr)
    (hp : nodes[fr.file]? = some parent)
    (hdir : parent.qid.ty &&& QTDIR ≠ 0)
    (hname : ¬(name = "." ∨ name = ".."))
    (hperm : CheckPerm parent fr.uid DMWRITE = true)
    (hex : alookup name (parent.children.getD []) = none)
    (hm : ¬(perm &&& QTDIR = 1 ∧ mode &&& 3 ≠ OREAD))
    (hopen : env.openErr = none) :
    (env.sidecarErr = some e →
      rcreate env now nodes heap table fid name perm mode =
        some ⟨some (pathJoin parent.name name ++ ": " ++ e), nodes, heap, table,
          none, [.created]⟩) ∧
    (env.sidecarErr = none → env.statErr = some e → env.removeErr = false →
      rcreate env now nodes heap table fid name perm mode =
        some ⟨some (pathJoin parent.name name ++ ": " ++ e), nodes, heap, table,
          none, [.created, .removed]⟩) ∧
    (env.sidecarErr = none → env.statErr = some e → env.removeErr = true →
      rcreate env now nodes heap table fid name perm mode =
        some ⟨some (pathJoin parent.name name ++ ": " ++ e ++
            " (and file was left on disk)"), nodes, heap, table,
          none, [.created, .removeFailed]⟩) ∧
    (env.sidecarErr = none → env.statErr = none → env.i2sErr = some e →
        env.removeErr = false →
      rcreate env now nodes heap table fid name perm mode =
        some ⟨some (pathJoin parent.name name ++ ": " ++ e), nodes, heap, table,
          none, [.created, .removed]⟩) ∧
    (env.sidecarErr = none → env.statErr = none → env.i2sErr = some e →
        env.removeErr = true →
      rcreate env now nodes heap table fid name perm mode =
        some ⟨some (pathJoin parent.name name ++ ": " ++ e ++
            " (and file was left on disk)"), nodes, heap, table,
          none, [.created, .removeFailed]⟩) := by
  refine ⟨?_, ?_, ?_, ?_, ?_⟩
  · intro h1
    simp [rcreate, hf, hr, hp, hdir, hname, hperm, hex, hm, hopen, h1]
  · intro h1 h2 h3
    simp [rcreate, hf, hr, hp, hdir, hname, hperm, hex, hm, hopen, h1, h2, h3]
  · intro h1 h2 h3
    simp [rcreate, hf, hr, hp, hdir, hname, hperm, hex, hm, hopen, h1, h2, h3]
  · intro h1 h2 h3 h4
    simp [rcreate, hf, hr, hp, hdir, hname, hperm, hex, hm, hopen, h1, h2, h3, h4]
  · intro h1 h2 h3 h4
    simp [rcreate, hf, hr, hp, hdir, hname, hperm, hex, hm, hopen, h1, h2, h3, h4]

/-- Witness for C3's amended claim: a create under the root where the stat
fails and the cleanup remove fails too yields the "left on disk" message. -/
theorem rcreate_cleanup_amended_witness :
    alookup 0 bobTable = some 0 ∧ envStatFail.statErr = some "statboom" ∧
    envStatFail.removeErr = true ∧
    rcreate envStatFail 0 createNodes bobHeap bobTable 0 "hello" 420 1 =
      some ⟨some ("//hello: statboom (and file was left on disk)"),
        createNodes, bobHeap, bobTable, none, [.created, .removeFailed]⟩ :=
  ⟨by decide, by decide, by decide,
    ((rcreate_cleanup_amended envStatFail 0 createNodes bobHeap bobTable 0
      "hello" 420 1 0 ⟨0, "bob", false⟩ createParent "statboom"
      (by decide) (by decide) (by decide) (by decide) (by decide) (by decide)
      (by decide) (by decide) (by decide)).2.2.1) rfl rfl rfl⟩

/-- C4: the claim says every directory node built by `buildfile` has the DIR
bit set in `qid.type`.  The source (vufs.go:571) ORs `QTDIR` into
`Qid.Vers` instead: for a directory seen by the startup walk, the built
node's `qid.ty` stays `0` (no DIR bit) while the bit lands in `qid.vers`,
even though its child map is allocated and its mode carries `DMDIR`. -/
theorem buildfile_dir_bit_in_vers :
    dirInfo.isDir = true ∧
    (buildfile false 0 dirInfo).qid.ty &&& QTDIR = 0 ∧
    (buildfile false 0 dirInfo).qid.vers &&& QTDIR = QTDIR ∧
    (buildfile false 0 dirInfo).mode &&& DMDIR = DMDIR ∧
    (buildfile false 0 dirInfo).children = some [] := by
  refine ⟨by decide, by decide, by decide, by decide, by decide⟩

end VuFs
